import Mathlib

/-!
Shallow embedding of the WebNN normalization op builder
(`onnxruntime/core/providers/webnn/builders/impl/normalization_op_builder.cc`):
the support filter `IsOpSupportedImpl`, the input-type filter
`HasSupportedInputsImpl`, and the lowering algorithm `AddToModelBuilderImpl`
for the operator types BatchNormalization, InstanceNormalization and
LayerNormalization.

Machine integers are embedded as `Int` / `Nat` with explicit `% 2 ^ 32`
where the source computes in `uint32_t`.  Fallible C++ paths (`Status`
returns, `SafeInt` conversion failures) are embedded as `Except String`.
Out-of-bounds vector accesses, which are undefined behavior in the source,
are embedded as `Option` failure (`none`) or as explicit `Except.error`
values, so that every function is total and the undefined domain is visible.
The floating-point epsilon attribute is not modelled: no claim depends on it
and the emitted option record carries only the fields the theorems inspect.
-/

namespace WebnnNorm

/-- Element data-type tags, mirroring `ONNX_NAMESPACE::TensorProto_DataType`
restricted to the tags this builder distinguishes (the two accepted
floating-point types plus representative rejected tags). -/
inductive DType where
  | float32
  | float16
  | int32
  | int64
  | uint8
deriving DecidableEq

/-- An IR input/output definition (`NodeArg`): a name, an existence flag
(`NodeArg::Exists`, false for omitted optional inputs), an optional static
shape (`GetShape` succeeds iff present) and an optional element type
(`GetType` succeeds iff present). -/
structure NodeArg where
  name : String
  argExists : Bool
  shape : Option (List Int)
  dtype : Option DType
deriving DecidableEq

instance : Inhabited NodeArg := ⟨⟨"", false, none, none⟩⟩

/-- An IR node: operator-type name, node name (used for diagnostic labels),
ordered input and output definitions, and integer-valued attributes
(`axis`, `training_mode`). -/
structure Node where
  opType : String
  name : String
  inputDefs : List NodeArg
  outputDefs : List NodeArg
  attributes : List (String × Int)
deriving DecidableEq

/-- Modelled from the spec: the attribute map offers typed
`get(name, default)` access (`NodeAttrHelper::Get`); a missing attribute
yields the supplied default. -/
def attrGetInt (node : Node) (attrName : String) (deflt : Int) : Int :=
  match node.attributes.lookup attrName with
  | some v => v
  | none => deflt

/-- Modelled from the spec: `HandleNegativeAxis` (core/providers/common.h is
not part of the sources) normalizes a possibly-negative axis by adding the
rank; its documented domain is axis ∈ [−rank, rank−1], and an axis outside
that range is a hard failure. -/
def handleNegativeAxis (axis tensor_rank : Int) : Except String Int :=
  if -tensor_rank ≤ axis ∧ axis ≤ tensor_rank - 1 then
    Except.ok (if axis < 0 then axis + tensor_rank else axis)
  else
    Except.error "axis is not in the valid range"

/-- Modelled from the spec: `SafeInt<uint32_t>` checked conversion of a
signed 64-bit dimension; a value that cannot be represented in the unsigned
32-bit target type is a hard failure, not silent truncation. -/
def safeIntUInt32 (v : Int) : Except String Nat :=
  if 0 ≤ v ∧ v < 4294967296 then Except.ok v.toNat
  else Except.error "SafeInt conversion out of range for uint32"

/-- Checked conversion of a whole dimension vector, one `SafeInt<uint32_t>`
per element, in order (the `std::transform` at lines 100–102). -/
def safeIntVec : List Int → Except String (List Nat)
  | [] => Except.ok []
  | d :: rest =>
    match safeIntUInt32 d with
    | Except.error e => Except.error e
    | Except.ok n =>
      match safeIntVec rest with
      | Except.error e => Except.error e
      | Except.ok ns => Except.ok (n :: ns)

/-- Modelled from the spec: `GetVecUint32FromVecInt64` converts the original
int64 shape into the unsigned 32-bit shape type used by the target builder;
per §7 of the spec each conversion is checked. -/
def getVecUint32FromVecInt64 (l : List Int) : Except String (List Nat) :=
  safeIntVec l

/-- The accepted element types (lines 201–204): float32 and float16. -/
def supportedDataTypes : List DType := [DType.float32, DType.float16]

/-- The option record passed to the target builder calls: diagnostic label,
scale operand name, optional bias operand name and (layer normalization
only) the ordered reduction axes. -/
structure NormOptions where
  label : String
  scaleName : String
  biasName : Option String
  axes : Option (List Nat)
deriving DecidableEq

/-- A value in the target graph: either a previously registered operand
(`ModelBuilder::GetOperand`) or the result of one of the four emitted
target-builder operations. -/
inductive WVal where
  | operand (name : String)
  | batchNorm (input mean variance : WVal) (opts : NormOptions)
  | layerNorm (input : WVal) (opts : NormOptions)
  | instanceNorm (input : WVal) (opts : NormOptions)
  | reshape (input : WVal) (newShape : List Nat) (label : String)
deriving DecidableEq

/-- `ORT_RETURN_IF_NOT(cond, msg)`: error with `msg` unless `cond` holds. -/
def ortReturnIfNot (p : Prop) [Decidable p] (msg : String) : Except String Unit :=
  if p then Except.ok () else Except.error msg

/-- The WebNN v1 fixed input rank for instanceNormalization (line 96). -/
def webnn_shape_rank : Nat := 4

/-- The rank adaptation for InstanceNormalization (lines 97–115): convert
every dimension through `SafeInt<uint32_t>`, then
* rank < 4: insert `4 − rank` dimensions of size 1 at `begin() + 3`; for a
  rank-3 shape this appends a single 1 at the end.  For rank ≤ 2 the
  iterator `begin() + 3` is past the end of the vector, which is undefined
  behavior in the source; the embedding makes that an explicit error value;
* rank ≥ 4: fold the `excess + 1` dimensions starting at index 3 into one
  by `std::accumulate` with `std::multiplies<uint32_t>`, i.e. a product
  taken modulo 2^32 at every step, then erase the folded range and store
  the product at index 3, leaving `[d0, d1, d2, product]`.
This is the pad-or-fold step on the already-converted uint32 shape. -/
def padFold (new_shape : List Nat) : Except String (List Nat) :=
  if new_shape.length < webnn_shape_rank then
    if new_shape.length = 3 then
      Except.ok (new_shape.take 3 ++ List.replicate (webnn_shape_rank - new_shape.length) 1
        ++ new_shape.drop 3)
    else
      Except.error "undefined behavior: insertion point begin()+3 is past the end"
  else
    Except.ok (new_shape.take 3 ++
      [((new_shape.drop 3).take (new_shape.length - webnn_shape_rank + 1)).foldl
        (fun acc d => acc * d % 4294967296) 1])

/-- The full rank adaptation: checked conversion followed by pad-or-fold.
`new_shape` has the same length as `input_shape`, so the source conditions
on `input_shape.size()` coincide with the conditions on the converted
vector. -/
def instanceNormAdapt (input_shape : List Int) : Except String (List Nat) :=
  match safeIntVec input_shape with
  | Except.error e => Except.error e
  | Except.ok new_shape => padFold new_shape

/-- The axes computation for LayerNormalization (lines 85–88): read the
`axis` attribute result after `HandleNegativeAxis`, then build a vector of
size `rank − axis` filled by `std::iota` starting at the normalized axis. -/
def layerNormAxes (rank : Nat) (axis0 : Int) : Except String (List Nat) :=
  match handleNegativeAxis axis0 (rank : Int) with
  | Except.error e => Except.error e
  | Except.ok axis =>
    Except.ok ((List.range (rank - axis.toNat)).map (fun i => axis.toNat + i))

/-- Boolean form of the bias-shape condition of lines 58–63: the third
input, when present with a non-empty name, has a resolvable shape equal to
the scale shape.  `rest` is the input list from index 2 on. -/
def biasOkB (rest : List NodeArg) (scale_shape : List Int) : Bool :=
  match rest[0]? with
  | some d2 => if d2.name ≠ "" then decide (d2.shape = some scale_shape) else true
  | none => true

/-- The bias-shape validation (lines 58–63): if a third input exists with a
non-empty name, its shape must be resolvable and equal to the scale shape.
`rest` is the input list from index 2 on. -/
def biasCheck (rest : List NodeArg) (scale_shape : List Int) : Except String Unit :=
  match rest[0]? with
  | some d2 =>
    if d2.name ≠ "" then
      match d2.shape with
      | none => Except.error "Cannot get bias shape"
      | some bias_shape =>
        ortReturnIfNot (bias_shape = scale_shape)
          "The bias shape should be equal to the scale shape."
    else Except.ok ()
  | none => Except.ok ()

/-- The optional bias operand name recorded in the options (lines 68–72). -/
def biasName (rest : List NodeArg) : Option String :=
  match rest[0]? with
  | some d2 => if d2.name ≠ "" then some d2.name else none
  | none => none

/-- The scale-rank validation (lines 50–56): for LayerNormalization the
scale rank must lie in `[1, rank]`, otherwise it must be exactly 1. -/
def scaleCheck (op_type : String) (scale_size rank : Nat) : Except String Unit :=
  if op_type = "LayerNormalization" then
    ortReturnIfNot (1 ≤ scale_size ∧ scale_size ≤ rank)
      "The scale size should be less than or equal to input size."
  else
    ortReturnIfNot (scale_size = 1) "The scale size should be one."

/-- The per-operator emission step (lines 77–137), producing the target
value to register for the node output.  `rest` is the input list from
index 2 on, so `input_defs.size() == 5` is `rest` having exactly three
elements, with mean at `rest 1` and variance at `rest 2`. -/
def emitVariant (node : Node) (input : WVal) (input_shape : List Int)
    (rest : List NodeArg) (options : NormOptions) : Except String WVal :=
  let op_type := node.opType
  let rank := input_shape.length
  if op_type = "BatchNormalization" then
    match rest with
    | [_, d3, d4] =>
      Except.ok (WVal.batchNorm input (WVal.operand d3.name) (WVal.operand d4.name) options)
    | _ => Except.error "BatchNormalization requires five inputs."
  else if op_type = "LayerNormalization" then
    match layerNormAxes rank (attrGetInt node "axis" (-1)) with
    | Except.error e => Except.error e
    | Except.ok axes =>
      Except.ok (WVal.layerNorm input { options with axes := some axes })
  else if op_type = "InstanceNormalization" then
    match
      (if rank ≠ webnn_shape_rank then
        match instanceNormAdapt input_shape with
        | Except.error e => Except.error e
        | Except.ok new_shape =>
          Except.ok (WVal.reshape input new_shape (node.name ++ "_reshape_input"))
      else Except.ok input) with
    | Except.error e => Except.error e
    | Except.ok adapted =>
      let normed := WVal.instanceNorm adapted options
      if rank ≠ 4 then
        match getVecUint32FromVecInt64 input_shape with
        | Except.error e => Except.error e
        | Except.ok output_shape =>
          Except.ok (WVal.reshape normed output_shape (node.name ++ "reshape_output"))
      else Except.ok normed
  else Except.error ("Unsupported normalization op: " ++ op_type)

/-- Embeds `NormalizationOpBuilder::AddToModelBuilderImpl` (lines 32–141).
The result is the name of the node output together with the target-graph
value registered for it by `ModelBuilder::AddOperand`; an `Except.error`
models a non-OK `Status` (no operand is registered in that case). -/
def addToModelBuilderImpl (node : Node) : Except String (String × WVal) :=
  match node.inputDefs with
  | d0 :: d1 :: rest =>
    let input := WVal.operand d0.name
    match d0.shape with
    | none => Except.error "Cannot get input shape"
    | some input_shape =>
      match d1.shape with
      | none => Except.error "Cannot get scale shape"
      | some scale_shape =>
        match scaleCheck node.opType scale_shape.length input_shape.length with
        | Except.error e => Except.error e
        | Except.ok _ =>
          match biasCheck rest scale_shape with
          | Except.error e => Except.error e
          | Except.ok _ =>
            let options : NormOptions :=
              { label := node.name
                scaleName := d1.name
                biasName := biasName rest
                axes := none }
            match emitVariant node input input_shape rest options with
            | Except.error e => Except.error e
            | Except.ok output =>
              match node.outputDefs[0]? with
              | some out0 => Except.ok (out0.name, output)
              | none => Except.error "undefined behavior: node has no output def"
  | _ => Except.error (node.opType ++ " requires at least two inputs.")

/-- The registered output entry in the operand table after one lowering
call: on error no entry is registered. -/
def registeredOutput (node : Node) : Option (String × WVal) :=
  match addToModelBuilderImpl node with
  | Except.ok p => some p
  | Except.error _ => none

/-- Embeds `NormalizationOpBuilder::IsOpSupportedImpl` (lines 145–176):
at least two inputs, resolvable primary input shape, exactly one output,
and for BatchNormalization a falsy `training_mode` attribute. -/
def isOpSupportedImpl (node : Node) : Bool :=
  match node.inputDefs with
  | d0 :: _ :: _ =>
    match d0.shape with
    | none => false
    | some _ =>
      if node.outputDefs.length ≠ 1 then false
      else if node.opType = "BatchNormalization" ∧ attrGetInt node "training_mode" 0 ≠ 0 then
        false
      else true
  | _ => false

/-- Embeds `NormalizationOpBuilder::HasSupportedInputsImpl` (lines 178–223)
as a total function: `none` models the undefined behavior of an
out-of-bounds `input_defs[...]` access (notably `input_defs[4]` under the
guard `input_defs.size() > 3` at line 189, reached when the size is exactly
4), `some b` models a defined boolean return.  The `GetType` chain at lines
191–195 short-circuits: `input_defs[1]` is dereferenced only after
`GetType(*input_defs[0], ...)` succeeds, so a single-input node whose first
input has no resolvable type returns false without any out-of-bounds
access; the embedding preserves that evaluation order. -/
def hasSupportedInputsImpl (node : Node) : Option Bool :=
  let defs := node.inputDefs
  let has_input2 : Bool := decide (2 < defs.length) && ((defs[2]?).getD default).argExists
  let has_input3 : Bool := decide (3 < defs.length) && ((defs[3]?).getD default).argExists
  match (if 3 < defs.length then (defs[4]?).map NodeArg.argExists else some false) with
  | none => none
  | some has_input4 =>
    match defs[0]? with
    | none => none
    | some d0 =>
      match d0.dtype with
      | none => some false
      | some input0_type =>
        match defs[1]? with
        | none => none
        | some d1 =>
          match d1.dtype with
          | none => some false
          | some _ =>
            if (has_input2 ∧ ((defs[2]?).getD default).dtype = none)
                ∨ (has_input3 ∧ ((defs[3]?).getD default).dtype = none)
                ∨ (has_input4 ∧ ((defs[4]?).getD default).dtype = none) then some false
            else if input0_type ∉ supportedDataTypes then some false
            else if d0.dtype ≠ d1.dtype
                ∨ (has_input2 ∧ ((defs[2]?).getD default).dtype ≠ some input0_type)
                ∨ (has_input3 ∧ ((defs[3]?).getD default).dtype ≠ some input0_type)
                ∨ (has_input4 ∧ ((defs[4]?).getD default).dtype ≠ some input0_type) then some false
            else some true

/-- The conditions that `AddToModelBuilderImpl` re-validates (or needs for
its shape arithmetic) but that neither `IsOpSupportedImpl` nor
`HasSupportedInputsImpl` establishes: a resolvable scale shape of the
per-operator rank, bias shape equal to scale shape when a bias is present,
exactly five inputs for BatchNormalization, an in-range `axis` attribute
for LayerNormalization, and for InstanceNormalization a rank of at least 3
with every dimension representable in the unsigned 32-bit shape type. -/
def emitExtraOk (node : Node) : Bool :=
  match node.inputDefs with
  | d0 :: d1 :: rest =>
    match d0.shape, d1.shape with
    | some input_shape, some scale_shape =>
      (if node.opType = "LayerNormalization" then
        decide (1 ≤ scale_shape.length ∧ scale_shape.length ≤ input_shape.length)
      else decide (scale_shape.length = 1)) &&
      biasOkB rest scale_shape &&
      (if node.opType = "BatchNormalization" then decide (rest.length = 3) else true) &&
      (if node.opType = "LayerNormalization" then
        decide (-(input_shape.length : Int) ≤ attrGetInt node "axis" (-1)
          ∧ attrGetInt node "axis" (-1) ≤ (input_shape.length : Int) - 1)
      else true) &&
      (if node.opType = "InstanceNormalization" then
        decide (input_shape.length = 4
          ∨ (3 ≤ input_shape.length ∧ ∀ d ∈ input_shape, 0 ≤ d ∧ d < 4294967296))
      else true)
    | _, _ => false
  | _ => false

/-! Concrete example nodes used by the counterexamples and witnesses. -/

/-- A float32 tensor argument with a resolvable static shape. -/
def f32Arg (nm : String) (sh : List Int) : NodeArg :=
  ⟨nm, true, some sh, some DType.float32⟩

/-- The single output argument used by the concrete example nodes. -/
def outArg : NodeArg := ⟨"Y", true, none, some DType.float32⟩

/-- An InstanceNormalization node whose scale input has rank 2: both filters
accept it, yet emission rejects it. -/
def c1Node : Node :=
  ⟨"InstanceNormalization", "n1", [f32Arg "X" [1, 2, 3, 4], f32Arg "S" [3, 3]],
    [outArg], []⟩

/-- A well-formed rank-3 InstanceNormalization node. -/
def c1GoodNode : Node :=
  ⟨"InstanceNormalization", "g1", [f32Arg "X" [2, 4, 10], f32Arg "S" [4]],
    [outArg], []⟩

/-- A rank-3 InstanceNormalization node with input shape [2, 4, 10]. -/
def c2Node : Node :=
  ⟨"InstanceNormalization", "n2", [f32Arg "X" [2, 4, 10], f32Arg "S" [4]],
    [outArg], []⟩

/-- A BatchNormalization node with exactly four inputs, a resolvable input
shape, one output and no `training_mode` attribute. -/
def c3Node : Node :=
  ⟨"BatchNormalization", "b3",
    [f32Arg "X" [1, 3, 5, 5], f32Arg "S" [3], f32Arg "B" [3], f32Arg "M" [3]],
    [outArg], []⟩

/-- A LayerNormalization node with scale shape [8] and bias shape [4]. -/
def c6Node : Node :=
  ⟨"LayerNormalization", "l6",
    [f32Arg "X" [1, 8], f32Arg "S" [8], f32Arg "B" [4]], [outArg], []⟩

/-- A five-input BatchNormalization node with `training_mode = 1`. -/
def c8TrainNode : Node :=
  ⟨"BatchNormalization", "bt",
    [f32Arg "X" [1, 3, 5, 5], f32Arg "S" [3], f32Arg "B" [3], f32Arg "M" [3],
      f32Arg "V" [3]],
    [outArg], [("training_mode", 1)]⟩

/-- A five-input BatchNormalization node without a `training_mode`
attribute. -/
def c8EvalNode : Node :=
  ⟨"BatchNormalization", "be",
    [f32Arg "X" [1, 3, 5, 5], f32Arg "S" [3], f32Arg "B" [3], f32Arg "M" [3],
      f32Arg "V" [3]],
    [outArg], []⟩

/-- A node with exactly four inputs, for the out-of-bounds access in
`HasSupportedInputsImpl`. -/
def c10Node : Node :=
  ⟨"BatchNormalization", "b10",
    [f32Arg "X" [1, 3, 5, 5], f32Arg "S" [3], f32Arg "B" [3], f32Arg "M" [3]],
    [outArg], []⟩

/-- A node with a single input whose element type is unresolvable: the
short-circuit in the `GetType` chain returns false before `input_defs[1]`
is ever touched. -/
def c10OneNode : Node :=
  ⟨"BatchNormalization", "b1", [⟨"X", true, some [1, 2], none⟩], [outArg], []⟩

section Lemmas

theorem safeIntVec_ok (l : List Int) (h : ∀ d ∈ l, 0 ≤ d ∧ d < 4294967296) :
    safeIntVec l = Except.ok (l.map Int.toNat) := by
  induction l with
  | nil => rfl
  | cons d rest ih =>
    have hd := h d (List.mem_cons_self d rest)
    have hrest : ∀ x ∈ rest, 0 ≤ x ∧ x < 4294967296 :=
      fun x hx => h x (List.mem_cons_of_mem d hx)
    simp [safeIntVec, safeIntUInt32, hd, ih hrest]

theorem safeIntVec_error (l : List Int) (h : ∃ d ∈ l, ¬(0 ≤ d ∧ d < 4294967296)) :
    ∃ e, safeIntVec l = Except.error e := by
  induction l with
  | nil => simp at h
  | cons d rest ih =>
    rcases h with ⟨x, hx, hbad⟩
    rcases List.mem_cons.mp hx with rfl | hx2
    · exact ⟨"SafeInt conversion out of range for uint32",
        by simp [safeIntVec, safeIntUInt32, hbad]⟩
    · by_cases hd : 0 ≤ d ∧ d < 4294967296
      · rcases ih ⟨x, hx2, hbad⟩ with ⟨e, he⟩
        exact ⟨e, by simp [safeIntVec, safeIntUInt32, hd, he]⟩
      · exact ⟨"SafeInt conversion out of range for uint32",
          by simp [safeIntVec, safeIntUInt32, hd]⟩

theorem foldl_mul_mod (l : List Nat) (a : Nat) :
    l.foldl (fun acc d => acc * d % 4294967296) (a % 4294967296)
      = a * l.prod % 4294967296 := by
  induction l generalizing a with
  | nil => simp
  | cons d rest ih =>
    simp only [List.foldl_cons, List.prod_cons]
    rw [Nat.mod_mul_mod, ih (a * d), Nat.mul_assoc]

theorem biasCheck_ok_of (rest : List NodeArg) (scale_shape : List Int)
    (h : biasOkB rest scale_shape = true) : biasCheck rest scale_shape = Except.ok () := by
  unfold biasOkB at h
  unfold biasCheck
  cases hr : rest[0]? with
  | none => rfl
  | some d2 =>
    rw [hr] at h
    by_cases hn : d2.name = ""
    · simp [hn]
    · simp only [hn, ne_eq, not_false_eq_true, if_true, decide_eq_true_eq] at h
      simp [hn, h, ortReturnIfNot]

theorem layerNormAxes_ok (rank : Nat) (a0 : Int)
    (h1 : -(rank : Int) ≤ a0) (h2 : a0 ≤ (rank : Int) - 1) :
    ∃ axes, layerNormAxes rank a0 = Except.ok axes := by
  unfold layerNormAxes handleNegativeAxis
  simp only [if_pos (And.intro h1 h2)]
  exact ⟨_, rfl⟩

theorem instanceNormAdapt_eq_padFold (shape : List Int)
    (hdims : ∀ d ∈ shape, 0 ≤ d ∧ d < 4294967296) :
    instanceNormAdapt shape = padFold (shape.map Int.toNat) := by
  unfold instanceNormAdapt
  rw [safeIntVec_ok shape hdims]

theorem instanceNormAdapt_ok (shape : List Int) (h3 : 3 ≤ shape.length)
    (hdims : ∀ d ∈ shape, 0 ≤ d ∧ d < 4294967296) :
    ∃ ns, instanceNormAdapt shape = Except.ok ns := by
  rw [instanceNormAdapt_eq_padFold shape hdims]
  unfold padFold
  simp only [List.length_map]
  by_cases h4 : shape.length < webnn_shape_rank
  · have h34 : shape.length = 3 := by
      unfold webnn_shape_rank at h4; omega
    rw [if_pos h4, if_pos h34]
    exact ⟨_, rfl⟩
  · rw [if_neg h4]
    exact ⟨_, rfl⟩

theorem foldl_mul_mod_one (l : List Nat) :
    l.foldl (fun acc d => acc * d % 4294967296) 1 = l.prod % 4294967296 := by
  have h := foldl_mul_mod l 1
  rw [Nat.one_mul] at h
  rw [show ((1 : Nat) % 4294967296) = 1 from by norm_num] at h
  exact h

theorem scaleCheck_ok (op : String) (ss rank : Nat)
    (h : (if op = "LayerNormalization" then decide (1 ≤ ss ∧ ss ≤ rank)
      else decide (ss = 1)) = true) :
    scaleCheck op ss rank = Except.ok () := by
  unfold scaleCheck ortReturnIfNot
  by_cases hl : op = "LayerNormalization"
  · simp only [hl, if_true, decide_eq_true_eq] at h
    simp [hl, h]
  · simp only [hl, if_false] at h
    simp only [decide_eq_true_eq] at h
    simp [hl, h]

theorem except_error_of_not_ok {ε α : Type} (r : Except ε α)
    (h : ∀ a, r ≠ Except.ok a) : ∃ e, r = Except.error e := by
  cases r with
  | error e => exact ⟨e, rfl⟩
  | ok a => exact absurd rfl (h a)

theorem hasSupported_none_empty (node : Node) (h : node.inputDefs.length = 0) :
    hasSupportedInputsImpl node = none := by
  simp only [hasSupportedInputsImpl]
  rw [if_neg (by omega : ¬ 3 < node.inputDefs.length)]
  have h0 : node.inputDefs[0]? = none := List.getElem?_eq_none_iff.mpr (by omega)
  simp [h0]

theorem hasSupported_none_single (node : Node) (d0 : NodeArg) (t : DType)
    (h : node.inputDefs.length = 1) (hg : node.inputDefs[0]? = some d0)
    (ht : d0.dtype = some t) :
    hasSupportedInputsImpl node = none := by
  simp only [hasSupportedInputsImpl]
  rw [if_neg (by omega : ¬ 3 < node.inputDefs.length)]
  have h1 : node.inputDefs[1]? = none := List.getElem?_eq_none_iff.mpr (by omega)
  simp [hg, ht, h1]

theorem hasSupported_false_untyped (node : Node) (d0 : NodeArg)
    (hne : node.inputDefs.length ≠ 4)
    (hg : node.inputDefs[0]? = some d0) (ht : d0.dtype = none) :
    hasSupportedInputsImpl node = some false := by
  simp only [hasSupportedInputsImpl]
  by_cases h4 : 3 < node.inputDefs.length
  · have h5 : 5 ≤ node.inputDefs.length := by omega
    have hg4 : node.inputDefs[4]? = some (node.inputDefs.get ⟨4, by omega⟩) :=
      List.getElem?_eq_getElem (by omega)
    rw [if_pos h4, hg4]
    simp [hg, ht]
  · rw [if_neg h4]
    simp [hg, ht]

theorem hasSupported_none_four (node : Node) (h : node.inputDefs.length = 4) :
    hasSupportedInputsImpl node = none := by
  simp only [hasSupportedInputsImpl]
  rw [if_pos (by omega : 3 < node.inputDefs.length)]
  have h4 : node.inputDefs[4]? = none := List.getElem?_eq_none_iff.mpr (by omega)
  simp [h4]

theorem hasSupported_isSome (node : Node) (h2 : 2 ≤ node.inputDefs.length)
    (hne : node.inputDefs.length ≠ 4) :
    (hasSupportedInputsImpl node).isSome = true := by
  rcases hd : node.inputDefs with _ | ⟨d0, _ | ⟨d1, rest⟩⟩
  · rw [hd] at h2; simp at h2
  · rw [hd] at h2; simp at h2
  · rw [hd] at hne
    simp only [List.length_cons] at hne
    rcases rest with _ | ⟨a, _ | ⟨b, _ | ⟨c, t⟩⟩⟩
    · simp only [hasSupportedInputsImpl, hd, List.length_cons, List.length_nil]
      rw [if_neg (by omega)]
      simp only [List.getElem?_cons_zero, List.getElem?_cons_succ]
      cases hT0 : d0.dtype with
      | none => simp [hT0]
      | some t0 =>
        cases hT1 : d1.dtype with
        | none => simp [hT0, hT1]
        | some t1 =>
          simp only [hT0, hT1]
          (repeat' split) <;> rfl
    · simp only [hasSupportedInputsImpl, hd, List.length_cons, List.length_nil]
      rw [if_neg (by omega)]
      simp only [List.getElem?_cons_zero, List.getElem?_cons_succ]
      cases hT0 : d0.dtype with
      | none => simp [hT0]
      | some t0 =>
        cases hT1 : d1.dtype with
        | none => simp [hT0, hT1]
        | some t1 =>
          simp only [hT0, hT1]
          (repeat' split) <;> rfl
    · simp at hne
    · simp only [hasSupportedInputsImpl, hd, List.length_cons]
      rw [if_pos (by omega)]
      simp only [List.getElem?_cons_zero, List.getElem?_cons_succ, Option.map_some']
      cases hT0 : d0.dtype with
      | none => simp [hT0]
      | some t0 =>
        cases hT1 : d1.dtype with
        | none => simp [hT0, hT1]
        | some t1 =>
          simp only [hT0, hT1]
          (repeat' split) <;> rfl

theorem except_ok_of_not_error {ε α : Type} (r : Except ε α)
    (h : ∀ e, r ≠ Except.error e) : ∃ v, r = Except.ok v := by
  cases r with
  | error e => exact absurd rfl (h e)
  | ok v => exact ⟨v, rfl⟩

theorem lt_of_getElem?_some {α : Type} {l : List α} {k : Nat} {d : α}
    (h : l[k]? = some d) : k < l.length := by
  by_contra hc
  push_neg at hc
  rw [List.getElem?_eq_none_iff.mpr hc] at h
  simp at h

end Lemmas

section Claims

/-- C2 counterexample: on input shape [2, 4, 10] the lowering emits a
reshape whose target shape is [2, 4, 10, 1] — the single size-1 dimension
is appended at index 3 of the padded shape — and not [2, 4, 1, 10] as the
claim states. -/
theorem c2_counterexample :
    addToModelBuilderImpl c2Node = Except.ok ("Y",
      WVal.reshape
        (WVal.instanceNorm
          (WVal.reshape (WVal.operand "X") [2, 4, 10, 1] "n2_reshape_input")
          ⟨"n2", "S", none, none⟩)
        [2, 4, 10] "n2reshape_output")
    ∧ ([2, 4, 10, 1] : List Nat) ≠ [2, 4, 1, 10] :=
  ⟨rfl, by decide⟩

/-- C2 (amended): for every InstanceNormalization input of rank 3 with
representable dimensions [d0, d1, d2], the reshape target computed by the
rank adaptation is [d0, d1, d2, 1]: the size-1 dimension is inserted at
position 3 (appended at the end of the padded 4-D shape), not at
position 2. -/
theorem c2_amended (d0 d1 d2 : Int)
    (h0 : 0 ≤ d0 ∧ d0 < 4294967296) (h1 : 0 ≤ d1 ∧ d1 < 4294967296)
    (h2 : 0 ≤ d2 ∧ d2 < 4294967296) :
    instanceNormAdapt [d0, d1, d2] = Except.ok [d0.toNat, d1.toNat, d2.toNat, 1] := by
  have h : ∀ d ∈ [d0, d1, d2], 0 ≤ d ∧ d < 4294967296 := by
    intro d hd
    rcases List.mem_cons.mp hd with rfl | hd
    · exact h0
    rcases List.mem_cons.mp hd with rfl | hd
    · exact h1
    rcases List.mem_cons.mp hd with rfl | hd
    · exact h2
    simp at hd
  rw [instanceNormAdapt_eq_padFold _ h]
  unfold padFold
  simp [webnn_shape_rank]

/-- C2 amended witness: the concrete rank-3 shape [2, 4, 10] maps to
[2, 4, 10, 1]. -/
theorem c2_amended_witness :
    instanceNormAdapt [2, 4, 10] = Except.ok [2, 4, 10, 1] :=
  c2_amended 2 4 10 (by decide) (by decide) (by decide)

/-- C3 counterexample: a BatchNormalization node with exactly four inputs,
a resolvable input shape, one output and no training_mode attribute is
accepted by `IsOpSupportedImpl` (the claim says it is declined); the
five-input requirement is only raised later, as a hard error of
`AddToModelBuilderImpl`. -/
theorem c3_counterexample :
    isOpSupportedImpl c3Node = true
    ∧ addToModelBuilderImpl c3Node
        = Except.error "BatchNormalization requires five inputs." :=
  ⟨rfl, rfl⟩

/-- C3 (amended): `IsOpSupportedImpl` does not check BatchNormalization
arity: every four-input BatchNormalization node with resolvable input
shape, one output and falsy training_mode passes the support filter, and
the exactly-five-inputs requirement is instead enforced as a hard failure
inside `AddToModelBuilderImpl`. -/
theorem c3_amended (node : Node)
    (hop : node.opType = "BatchNormalization")
    (hlen : node.inputDefs.length = 4)
    (hshape : (node.inputDefs.headD default).shape.isSome = true)
    (hout : node.outputDefs.length = 1)
    (htrain : attrGetInt node "training_mode" 0 = 0) :
    isOpSupportedImpl node = true
    ∧ ∃ e, addToModelBuilderImpl node = Except.error e := by
  rcases hd : node.inputDefs with _ | ⟨a, t1⟩
  · rw [hd] at hlen; simp at hlen
  rcases t1 with _ | ⟨b, t2⟩
  · rw [hd] at hlen; simp at hlen
  rcases t2 with _ | ⟨c, t3⟩
  · rw [hd] at hlen; simp at hlen
  rcases t3 with _ | ⟨d, t4⟩
  · rw [hd] at hlen; simp at hlen
  rcases t4 with _ | ⟨e, t5⟩
  swap
  · rw [hd] at hlen; simp at hlen
  rw [hd] at hshape
  simp only [List.headD_cons] at hshape
  rcases Option.isSome_iff_exists.mp hshape with ⟨s, hs⟩
  constructor
  · simp [isOpSupportedImpl, hd, hs, hout, htrain]
  · refine except_error_of_not_ok _ ?_
    intro out hok
    simp only [addToModelBuilderImpl, hd, hs] at hok
    split at hok
    · simp at hok
    split at hok
    · simp at hok
    split at hok
    · simp at hok
    split at hok
    · simp at hok
    next output heq => simp [emitVariant, hop] at heq

/-- C3 amended witness: the concrete four-input node `c3Node`. -/
theorem c3_amended_witness :
    isOpSupportedImpl c3Node = true
    ∧ ∃ e, addToModelBuilderImpl c3Node = Except.error e :=
  c3_amended c3Node rfl rfl rfl rfl rfl

/-- C9 counterexample: for the rank-5 shape [1, 1, 1, 65536, 65536] every
individual dimension is representable, but the folded product 65536 * 65536
= 2^32 is not; the code nevertheless succeeds, silently wrapping the folded
dimension to 0 instead of failing hard. -/
theorem c9_counterexample :
    instanceNormAdapt [1, 1, 1, 65536, 65536] = Except.ok [1, 1, 1, 0]
    ∧ 4294967296 ≤ 65536 * 65536 :=
  ⟨rfl, by norm_num⟩

/-- C9 (amended): each individual dimension conversion is checked — any
dimension outside the unsigned 32-bit range makes the rank adaptation fail
hard — but the folded product of the trailing dimensions for rank > 4 is
computed with unsigned 32-bit modular multiplication and wraps around
silently (the result is the product modulo 2^32, with no overflow check). -/
theorem c9_amended (shape : List Int) :
    ((∃ d ∈ shape, ¬(0 ≤ d ∧ d < 4294967296)) →
      ∃ e, instanceNormAdapt shape = Except.error e)
    ∧ (5 ≤ shape.length → (∀ d ∈ shape, 0 ≤ d ∧ d < 4294967296) →
      instanceNormAdapt shape = Except.ok ((shape.map Int.toNat).take 3
        ++ [((shape.map Int.toNat).drop 3).prod % 4294967296])) := by
  constructor
  · intro hbad
    rcases safeIntVec_error shape hbad with ⟨e, he⟩
    unfold instanceNormAdapt
    rw [he]
    exact ⟨e, rfl⟩
  · intro h5 hdims
    rw [instanceNormAdapt_eq_padFold shape hdims]
    unfold padFold
    simp only [List.length_map]
    rw [if_neg (by unfold webnn_shape_rank; omega)]
    have hdrop :
        ((shape.map Int.toNat).drop 3).take (shape.length - webnn_shape_rank + 1)
          = (shape.map Int.toNat).drop 3 := by
      apply List.take_of_length_le
      simp only [List.length_drop, List.length_map]
      unfold webnn_shape_rank
      omega
    rw [hdrop, foldl_mul_mod_one]

/-- C9 amended witness: an out-of-range dimension fails hard, and a rank-5
shape folds its two trailing dimensions to their product. -/
theorem c9_amended_witness :
    (∃ e, instanceNormAdapt [5000000000, 1, 1] = Except.error e)
    ∧ instanceNormAdapt [1, 2, 3, 4, 5] = Except.ok [1, 2, 3, 20] := by
  constructor
  · exact (c9_amended [5000000000, 1, 1]).1 ⟨5000000000, by norm_num⟩
  · exact (c9_amended [1, 2, 3, 4, 5]).2 (by norm_num) (by decide)

/-- C4 counterexample: the pad/fold transform does not conserve the
element count in general: for [2, 1, 1, 65536, 65536] the folded dimension
wraps to 0, so the adapted shape [2, 1, 1, 0] has element count 0 while the
original has 2 * 2^32. -/
theorem c4_counterexample :
    instanceNormAdapt [2, 1, 1, 65536, 65536] = Except.ok [2, 1, 1, 0]
    ∧ ([2, 1, 1, 0] : List Nat).prod
        ≠ (([2, 1, 1, 65536, 65536] : List Int).map Int.toNat).prod := by
  exact ⟨rfl, by decide⟩

/-- C4 (amended): for every InstanceNormalization input shape of rank at
least 3 whose dimensions are representable and whose trailing fold product
(the product of the dimensions from index 3 on) fits in the unsigned 32-bit
type, the adapted shape has exactly 4 dimensions and the same element
count as the original, and the final output reshape targets exactly the
original shape sequence.  (Rank ≤ 2 is excluded because the insertion
point is past the end of the vector in the source; an oversized fold
product wraps, per the counterexample.) -/
theorem c4_amended (shape : List Int) (h3 : 3 ≤ shape.length)
    (hdims : ∀ d ∈ shape, 0 ≤ d ∧ d < 4294967296)
    (hprod : ((shape.map Int.toNat).drop 3).prod < 4294967296) :
    ∃ ns, instanceNormAdapt shape = Except.ok ns ∧ ns.length = 4
      ∧ ns.prod = (shape.map Int.toNat).prod
      ∧ getVecUint32FromVecInt64 shape = Except.ok (shape.map Int.toNat) := by
  have hrestore : getVecUint32FromVecInt64 shape = Except.ok (shape.map Int.toNat) := by
    unfold getVecUint32FromVecInt64
    exact safeIntVec_ok shape hdims
  rcases Nat.eq_or_lt_of_le h3 with h3e | h4
  · -- rank exactly 3: pad with a trailing 1
    have hlen : shape.length = 3 := h3e.symm
    have htake : (shape.map Int.toNat).take 3 = shape.map Int.toNat :=
      List.take_of_length_le (by simp [hlen])
    have hdrop : (shape.map Int.toNat).drop 3 = [] :=
      List.drop_eq_nil_of_le (by simp [hlen])
    refine ⟨shape.map Int.toNat ++ [1], ?_, ?_, ?_, hrestore⟩
    · rw [instanceNormAdapt_eq_padFold shape hdims]
      unfold padFold
      simp only [List.length_map]
      rw [if_pos (by unfold webnn_shape_rank; omega), if_pos hlen]
      rw [htake, hdrop, hlen]
      simp [webnn_shape_rank]
    · simp [hlen]
    · simp
  · -- rank at least 4: fold the trailing dimensions
    have h4le : 4 ≤ shape.length := h4
    refine ⟨(shape.map Int.toNat).take 3 ++ [((shape.map Int.toNat).drop 3).prod],
      ?_, ?_, ?_, hrestore⟩
    · rw [instanceNormAdapt_eq_padFold shape hdims]
      unfold padFold
      simp only [List.length_map]
      rw [if_neg (by unfold webnn_shape_rank; omega)]
      have hdrop :
          ((shape.map Int.toNat).drop 3).take (shape.length - webnn_shape_rank + 1)
            = (shape.map Int.toNat).drop 3 := by
        apply List.take_of_length_le
        simp only [List.length_drop, List.length_map]
        unfold webnn_shape_rank
        omega
      rw [hdrop, foldl_mul_mod_one, Nat.mod_eq_of_lt hprod]
    · simp only [List.length_append, List.length_take, List.length_map,
        List.length_cons, List.length_nil]
      omega
    · rw [List.prod_append, List.prod_cons, List.prod_nil, Nat.mul_one,
        List.prod_take_mul_prod_drop]

/-- C4 amended witness: the rank-5 shape [2, 4, 3, 5, 7] folds to a 4-D
shape with the same element count, and the restore reshape targets the
original sequence. -/
theorem c4_amended_witness :
    ∃ ns, instanceNormAdapt [2, 4, 3, 5, 7] = Except.ok ns ∧ ns.length = 4
      ∧ ns.prod = (([2, 4, 3, 5, 7] : List Int).map Int.toNat).prod
      ∧ getVecUint32FromVecInt64 [2, 4, 3, 5, 7]
          = Except.ok (([2, 4, 3, 5, 7] : List Int).map Int.toNat) :=
  c4_amended [2, 4, 3, 5, 7] (by norm_num) (by decide) (by decide)

/-- C5: for every LayerNormalization input rank and axis attribute a with
−rank ≤ a ≤ rank − 1, the computed axes list is the integer range
[normalized, rank) in increasing order, where normalized = a + rank if a is
negative and a otherwise. -/
theorem c5_axes (rank : Nat) (a0 : Int)
    (h1 : -(rank : Int) ≤ a0) (h2 : a0 ≤ (rank : Int) - 1) :
    layerNormAxes rank a0
      = Except.ok (List.range'
          (if a0 < 0 then a0 + (rank : Int) else a0).toNat
          (rank - (if a0 < 0 then a0 + (rank : Int) else a0).toNat)) := by
  unfold layerNormAxes handleNegativeAxis
  rw [if_pos (And.intro h1 h2)]
  rw [List.range'_eq_map_range]

/-- C5 witness: axis −2 at rank 4 gives the axes [2, 3]; axis −1 gives
[3]; axis 1 gives [1, 2, 3]. -/
theorem c5_axes_witness :
    layerNormAxes 4 (-2) = Except.ok [2, 3]
    ∧ layerNormAxes 4 (-1) = Except.ok [3]
    ∧ layerNormAxes 4 1 = Except.ok [1, 2, 3] :=
  ⟨c5_axes 4 (-2) (by norm_num) (by norm_num),
   c5_axes 4 (-1) (by norm_num) (by norm_num),
   c5_axes 4 1 (by norm_num) (by norm_num)⟩

/-- C8: every BatchNormalization node with a truthy training_mode
attribute is softly declined by `IsOpSupportedImpl` (returns false, not an
error); with the attribute absent the default 0 is used, the check passes,
and a node meeting the remaining filter conditions is accepted. -/
theorem c8_training (node : Node) (hop : node.opType = "BatchNormalization") :
    (attrGetInt node "training_mode" 0 ≠ 0 → isOpSupportedImpl node = false)
    ∧ (node.attributes.lookup "training_mode" = none →
        ∀ d0 d1 rest, node.inputDefs = d0 :: d1 :: rest →
        ∀ s, d0.shape = some s → node.outputDefs.length = 1 →
        isOpSupportedImpl node = true) := by
  constructor
  · intro htr
    unfold isOpSupportedImpl
    split
    · split
      · rfl
      · by_cases hout : node.outputDefs.length ≠ 1
        · rw [if_pos hout]
        · rw [if_neg hout, if_pos (And.intro hop htr)]
    · rfl
  · intro habs d0 d1 rest hd s hs hout
    have h0 : attrGetInt node "training_mode" 0 = 0 := by
      unfold attrGetInt
      rw [habs]
    simp [isOpSupportedImpl, hd, hs, hout, h0]

/-- C8 witness: the five-input node with training_mode = 1 is declined,
while the same node without the attribute is accepted. -/
theorem c8_training_witness :
    isOpSupportedImpl c8TrainNode = false ∧ isOpSupportedImpl c8EvalNode = true :=
  ⟨(c8_training c8TrainNode rfl).1 (by decide),
   (c8_training c8EvalNode rfl).2 rfl _ _ _ rfl _ rfl rfl⟩

/-- C10 counterexample: a single-input node whose first input has no
resolvable element type gets a defined false return — the GetType chain of
the source short-circuits before `input_defs[1]` is dereferenced — so the
index accesses are not in bounds only for nodes with at least two inputs. -/
theorem c10_counterexample :
    hasSupportedInputsImpl c10OneNode = some false
    ∧ ¬ 2 ≤ c10OneNode.inputDefs.length :=
  ⟨rfl, by decide⟩

/-- C10 (amended): `HasSupportedInputsImpl` dereferences input 0
unconditionally, input 1 only after GetType on input 0 succeeds (the
|| chain short-circuits), and input 4 under the guard `size > 3`; so in
the total embedding the result is defined exactly when the input count is
not four and either the node has at least two inputs or its input 0 has an
unresolvable type (then it returns false before touching index 1).  In
particular a node with exactly four inputs reaches the out-of-bounds
access at index 4. -/
theorem c10_bounds (node : Node) :
    (hasSupportedInputsImpl node).isSome = true
      ↔ (node.inputDefs.length ≠ 4
          ∧ (2 ≤ node.inputDefs.length
             ∨ ∃ d0, node.inputDefs[0]? = some d0 ∧ d0.dtype = none)) := by
  constructor
  · intro h
    constructor
    · intro he
      rw [hasSupported_none_four node he] at h
      simp at h
    · by_contra hc
      push_neg at hc
      obtain ⟨hlt, hall⟩ := hc
      rcases (by omega : node.inputDefs.length = 0 ∨ node.inputDefs.length = 1)
        with h0 | h1
      · rw [hasSupported_none_empty node h0] at h
        simp at h
      · have hg : node.inputDefs[0]? = some (node.inputDefs.get ⟨0, by omega⟩) :=
          List.getElem?_eq_getElem (by omega)
        cases ht : (node.inputDefs.get ⟨0, by omega⟩).dtype with
        | none => exact absurd ht (hall _ hg)
        | some t =>
          rw [hasSupported_none_single node _ t h1 hg ht] at h
          simp at h
  · rintro ⟨hne, h2 | ⟨d0, hg, ht⟩⟩
    · exact hasSupported_isSome node h2 hne
    · rw [hasSupported_false_untyped node d0 hne hg ht]
      rfl

/-- C10 amended witness: the four-input node is undefined (it reaches the
out-of-bounds access at index 4) while the single-input untyped node is
defined, both read off the amended characterization. -/
theorem c10_bounds_witness :
    (hasSupportedInputsImpl c10Node).isSome = false
    ∧ (hasSupportedInputsImpl c10OneNode).isSome = true := by
  constructor
  · cases hh : (hasSupportedInputsImpl c10Node).isSome with
    | false => rfl
    | true =>
      have hr := (c10_bounds c10Node).mp hh
      exact absurd (by decide : c10Node.inputDefs.length = 4) hr.1
  · exact (c10_bounds c10OneNode).mpr
      ⟨by decide, Or.inr ⟨⟨"X", true, some [1, 2], none⟩, rfl, rfl⟩⟩

/-- C6: a present, non-empty third (bias) input whose static shape differs
from the scale shape makes `AddToModelBuilderImpl` fail hard, and no
operand is registered for the node output; neither filter inspects the
bias shape, so the rejection happens during emission (the witness shows
both filters accepting the scale [8] / bias [4] node). -/
theorem c6_bias (node : Node) (d1 d2 : NodeArg) (ssh bsh : List Int)
    (h1 : node.inputDefs[1]? = some d1)
    (h2 : node.inputDefs[2]? = some d2)
    (hname : d2.name ≠ "")
    (hss : d1.shape = some ssh)
    (hbs : d2.shape = some bsh)
    (hne : bsh ≠ ssh) :
    (∃ e, addToModelBuilderImpl node = Except.error e)
    ∧ registeredOutput node = none := by
  have herr : ∃ e, addToModelBuilderImpl node = Except.error e := by
    refine except_error_of_not_ok _ ?_
    intro out hok
    rcases hd : node.inputDefs with _ | ⟨a, _ | ⟨b, rest⟩⟩
    · rw [hd] at h1; simp at h1
    · rw [hd] at h1; simp at h1
    · rw [hd] at h1 h2
      simp only [List.getElem?_cons_zero, List.getElem?_cons_succ] at h1 h2
      obtain rfl : b = d1 := Option.some_inj.mp h1
      simp only [addToModelBuilderImpl, hd] at hok
      split at hok
      · simp at hok
      split at hok
      · simp at hok
      next scale_shape heqss =>
        split at hok
        · simp at hok
        next u heqsc =>
          split at hok
          · simp at hok
          next u2 heqbc =>
            rw [hss] at heqss
            obtain rfl : ssh = scale_shape := Option.some_inj.mp heqss
            simp [biasCheck, h2, hname, hbs, ortReturnIfNot, hne] at heqbc
  rcases herr with ⟨e, he⟩
  refine ⟨⟨e, he⟩, ?_⟩
  unfold registeredOutput
  rw [he]

/-- C6 witness: for the LayerNormalization node with scale shape [8] and
bias shape [4], both filters return true and emission fails hard with no
registered output. -/
theorem c6_bias_witness :
    isOpSupportedImpl c6Node = true ∧ hasSupportedInputsImpl c6Node = some true
    ∧ (∃ e, addToModelBuilderImpl c6Node = Except.error e)
    ∧ registeredOutput c6Node = none := by
  have h := c6_bias c6Node (f32Arg "S" [8]) (f32Arg "B" [4]) [8] [4]
    rfl rfl (by decide) rfl rfl (by decide)
  exact ⟨rfl, rfl, h.1, h.2⟩

/-- C7: whenever `HasSupportedInputsImpl` returns true, all present inputs
among input, scale, bias, mean and variance carry one identical element
type, and that type is float32 or float16. -/
theorem c7_types (node : Node) (h : hasSupportedInputsImpl node = some true) :
    ∃ t, (t = DType.float32 ∨ t = DType.float16)
      ∧ ∀ k, k < 5 → ∀ d, node.inputDefs[k]? = some d → d.argExists = true →
          d.dtype = some t := by
  simp only [hasSupportedInputsImpl] at h
  split at h
  · exact absurd h (by simp)
  next has4 heq4 =>
    split at h
    · exact absurd h (by simp)
    next d0 heq0 =>
      split at h
      · exact absurd h (by simp)
      rename_i input0_type heqT0
      split at h
      · exact absurd h (by simp)
      rename_i d1 heq1
      split at h
      · exact absurd h (by simp)
      rename_i t1 heqT1
      split at h
      · exact absurd h (by simp)
      rename_i hC1
      split at h
      · exact absurd h (by simp)
      rename_i hC2
      split at h
      · exact absurd h (by simp)
      rename_i hC3
      push_neg at hC2 hC3
      refine ⟨input0_type, ?_, ?_⟩
      · simpa [supportedDataTypes] using hC2
      · intro k hk d hgd hex
        have hlen : k < node.inputDefs.length := lt_of_getElem?_some hgd
        interval_cases k
        · rw [heq0] at hgd
          obtain rfl : d0 = d := Option.some_inj.mp hgd
          exact heqT0
        · rw [heq1] at hgd
          obtain rfl : d1 = d := Option.some_inj.mp hgd
          rw [← hC3.1]
          exact heqT0
        · have hgetD : node.inputDefs[2]?.getD default = d := by rw [hgd]; rfl
          have harg : (decide (2 < node.inputDefs.length)
              && (node.inputDefs[2]?.getD default).argExists) = true := by
            rw [hgetD, hex]
            simp [hlen]
          have hres := hC3.2.1 harg
          rw [hgetD] at hres
          exact hres
        · have hgetD : node.inputDefs[3]?.getD default = d := by rw [hgd]; rfl
          have harg : (decide (3 < node.inputDefs.length)
              && (node.inputDefs[3]?.getD default).argExists) = true := by
            rw [hgetD, hex]
            simp [hlen]
          have hres := hC3.2.2.1 harg
          rw [hgetD] at hres
          exact hres
        · have h4lt : 3 < node.inputDefs.length := by omega
          rw [if_pos h4lt, hgd] at heq4
          simp only [Option.map_some'] at heq4
          have hhas4 : has4 = d.argExists := (Option.some_inj.mp heq4).symm
          have hres := hC3.2.2.2 (by rw [hhas4, hex])
          have hgetD : node.inputDefs[4]?.getD default = d := by rw [hgd]; rfl
          rw [hgetD] at hres
          exact hres

/-- C1 counterexample: the InstanceNormalization node `c1Node` (rank-2
scale) passes both `IsOpSupportedImpl` and `HasSupportedInputsImpl`, yet
`AddToModelBuilderImpl` fails on its scale-rank re-validation: the filters
do not make emission total on their accepted domain. -/
theorem c1_counterexample :
    isOpSupportedImpl c1Node = true
    ∧ hasSupportedInputsImpl c1Node = some true
    ∧ addToModelBuilderImpl c1Node = Except.error "The scale size should be one." :=
  ⟨rfl, rfl, rfl⟩

/-- C1 (amended): for a node of one of the three supported types that
passes both filters, emission succeeds provided the additional conditions
the filters do not check hold as well: a resolvable scale shape of
per-operator rank, bias shape equal to scale shape when present, exactly
five inputs for BatchNormalization, an in-range axis attribute for
LayerNormalization, and for InstanceNormalization rank ≥ 3 with
representable dimensions. -/
theorem c1_amended (node : Node)
    (hop : node.opType = "BatchNormalization" ∨ node.opType = "InstanceNormalization"
      ∨ node.opType = "LayerNormalization")
    (hsupp : isOpSupportedImpl node = true)
    (hinputs : hasSupportedInputsImpl node = some true)
    (hextra : emitExtraOk node = true) :
    ∃ out, addToModelBuilderImpl node = Except.ok out := by
  rcases hd : node.inputDefs with _ | ⟨d0, _ | ⟨d1, rest⟩⟩
  · simp [isOpSupportedImpl, hd] at hsupp
  · simp [isOpSupportedImpl, hd] at hsupp
  cases hs0 : d0.shape with
  | none => simp [isOpSupportedImpl, hd, hs0] at hsupp
  | some input_shape =>
  cases hs1 : d1.shape with
  | none => simp [emitExtraOk, hd, hs0, hs1] at hextra
  | some scale_shape =>
  have hout : node.outputDefs.length = 1 := by
    by_contra hne
    simp [isOpSupportedImpl, hd, hs0, hne] at hsupp
  obtain ⟨o, ho⟩ := List.length_eq_one.mp hout
  simp only [emitExtraOk, hd, hs0, hs1, Bool.and_eq_true] at hextra
  obtain ⟨⟨⟨⟨hscale, hbias⟩, hbn⟩, hln⟩, hin⟩ := hextra
  have hemit : ∃ v, emitVariant node (WVal.operand d0.name) input_shape rest
      { label := node.name, scaleName := d1.name, biasName := biasName rest,
        axes := none } = Except.ok v := by
    apply except_ok_of_not_error
    intro e he
    rcases hop with hB | hI | hL
    · rw [hB] at hbn
      simp at hbn
      obtain ⟨a, b, c, rfl⟩ := List.length_eq_three.mp hbn
      simp [emitVariant, hB] at he
    · rw [hI] at hin
      simp at hin
      by_cases h4 : input_shape.length = 4
      · simp [emitVariant, hI, webnn_shape_rank, h4] at he
      · have hin2 : 3 ≤ input_shape.length ∧
            ∀ d ∈ input_shape, 0 ≤ d ∧ d < 4294967296 := by
          rcases hin with h4x | h
          · exact absurd h4x h4
          · exact h
        obtain ⟨ns, hns⟩ := instanceNormAdapt_ok input_shape hin2.1 hin2.2
        have hvec := safeIntVec_ok input_shape hin2.2
        simp [emitVariant, hI, webnn_shape_rank, h4, hns,
          getVecUint32FromVecInt64, hvec] at he
    · rw [hL] at hln
      simp at hln
      obtain ⟨axes, haxes⟩ :=
        layerNormAxes_ok input_shape.length (attrGetInt node "axis" (-1)) hln.1 hln.2
      simp [emitVariant, hL, haxes] at he
  rcases hemit with ⟨v, hv⟩
  refine ⟨(o.name, v), ?_⟩
  simp only [addToModelBuilderImpl, hd, hs0, hs1,
    scaleCheck_ok node.opType scale_shape.length input_shape.length hscale,
    biasCheck_ok_of rest scale_shape hbias, hv, ho, List.getElem?_cons_zero]

/-- C1 amended witness: the well-formed rank-3 InstanceNormalization node
passes both filters and the extra conditions, and its emission succeeds. -/
theorem c1_amended_witness :
    ∃ out, addToModelBuilderImpl c1GoodNode = Except.ok out :=
  c1_amended c1GoodNode (Or.inr (Or.inl rfl)) rfl rfl (by decide)

/-- C7 witness: on the five-input float32 BatchNormalization node the
input-type filter returns true and the type-uniformity conclusion holds. -/
theorem c7_types_witness :
    hasSupportedInputsImpl c8EvalNode = some true
    ∧ ∃ t, (t = DType.float32 ∨ t = DType.float16)
      ∧ ∀ k, k < 5 → ∀ d, c8EvalNode.inputDefs[k]? = some d → d.argExists = true →
          d.dtype = some t :=
  ⟨rfl, c7_types c8EvalNode rfl⟩

end Claims

end WebnnNorm
